import Mathlib

/-!
Gymotivator firmware: a shallow embedding of `firmware/src/main.cpp`.

The firmware runs on an ATmega328P: `int` is 16 bits, `long` and
`unsigned long` are 32 bits, `byte` is 8 bits.  Values of type `int` and
`long` are embedded as `Int`, values of type `unsigned long` and `byte` as
`Nat`, with the reduction modulo `2 ^ 32` written out where the code adds
two `unsigned long` values.

Everything the hardware hands to the program is an input of the model:

* the values returned by the pseudo random generator, as a list of raw
  values that the calls of `random` consume from the front,
* the value returned by each call of `millis()`, one per call site,
* the pin levels and the analog readings.

Everything the program writes to the serial port is an output: a list of
bytes.  The two LEDs are pin levels kept in the state.
-/

namespace Gymotivator

/-! ## Constants of the sketch -/

/-- The constant `lightLevelTrigger`. -/
def lightLevelTrigger : Int := 185

/-- The constant `numberOfSoundsAvailable`: all sounds, the reserved first one included. -/
def numberOfSoundsAvailable : Int := 9

/-- The constant `numberOfSoundsToCheck` local to `playSound`. -/
def numberOfSoundsToCheck : Nat := 3

/-! ## Machine arithmetic and the Arduino core helpers the sketch calls -/

/-- Arithmetic on `unsigned long` wraps modulo `2 ^ 32`. -/
def wrap32 (n : Nat) : Nat := n % 2 ^ 32

/-- Conversion of an `int` to `byte`, as at the call `playSoundOnModule(randomSound)`. -/
def toByte (x : Int) : Nat := (x % 256).toNat

/-- Conversion of an `int` to `unsigned int`, as at the call `setVolume(volume)`. -/
def toUInt16 (x : Int) : Nat := (x % 65536).toNat

/-- `Serial.write` of an integer expression sends its low byte. -/
def serialWrite (x : Nat) : Nat := x % 256

/-- The level `digitalRead` returns for a pin: `HIGH` is 1, `LOW` is 0. -/
def digitalRead (high : Bool) : Nat := if high then 1 else 0

/-- The Arduino core library function `random(howbig)` (not part of the sketch), from its
definition `if (howbig == 0) return 0; return random() % howbig;`, over the value `raw`
that the generator `random()` of the C library returns, a non-negative `long`. -/
def randomBelow (raw : Nat) (howbig : Int) : Int :=
  if howbig = 0 then 0 else Int.tmod (raw : Int) howbig

/-- The Arduino core library function `random(howsmall, howbig)` (not part of the sketch),
from its definition
`if (howsmall >= howbig) return howsmall; return random(howbig - howsmall) + howsmall;`. -/
def random (raw : Nat) (howsmall howbig : Int) : Int :=
  if howsmall ≥ howbig then howsmall else randomBelow raw (howbig - howsmall) + howsmall

/-- The Arduino core library function `map` (not part of the sketch), from its definition
`return (x - in_min) * (out_max - out_min) / (in_max - in_min) + out_min;` in `long`
arithmetic, where `/` rounds towards zero.  The sketch calls it on values in `0..1023`,
for which nothing overflows. -/
def map (x in_min in_max out_min out_max : Int) : Int :=
  Int.tdiv ((x - in_min) * (out_max - out_min)) (in_max - in_min) + out_min

/-! ## Sound module driver -/

/-- The bytes `playSoundOnModule(byte s)` writes. -/
def playSoundOnModule (s : Nat) : List Nat :=
  [serialWrite 0xAA,
   serialWrite 0x07,
   serialWrite 0x02,
   serialWrite (s >>> 8),
   serialWrite (s &&& 0x00FF),
   serialWrite ((0xAA + 0x07 + 0x02 + (s >>> 8) + (s &&& 0x00FF)) &&& 0x00FF)]

/-- The bytes `setVolume(unsigned int volume)` writes. -/
def setVolume (volume : Nat) : List Nat :=
  let volume := if volume > 30 then 30 else volume
  [serialWrite 0xAA,
   serialWrite 0x13,
   serialWrite 0x01,
   serialWrite volume,
   serialWrite ((0xAA + 0x13 + 0x01 + volume) &&& 0x00FF)]

/-- The bytes `stopPlayback()` writes. -/
def stopPlayback : List Nat :=
  [serialWrite 0xAA, serialWrite 0x04, serialWrite 0x00, serialWrite 0xAE]

/-! ## State -/

/-- The array `static int previousSounds[3]` of `playSound`. -/
structure SoundBuf where
  s0 : Int
  s1 : Int
  s2 : Int
  deriving DecidableEq, Repr

/-- Read `previousSounds[i]`. -/
def SoundBuf.get (b : SoundBuf) (i : Nat) : Int :=
  match i with
  | 0 => b.s0
  | 1 => b.s1
  | _ => b.s2

/-- Assign `previousSounds[i] = v`. -/
def SoundBuf.set (b : SoundBuf) (i : Nat) (v : Int) : SoundBuf :=
  match i with
  | 0 => { b with s0 := v }
  | 1 => { b with s1 := v }
  | _ => { b with s2 := v }

/-- The entries of the buffer, oldest first. -/
def SoundBuf.toList (b : SoundBuf) : List Int := [b.s0, b.s1, b.s2]

/-- The static variables of the sketch and the levels of its two output pins. -/
structure State where
  /-- `static unsigned long delayMillis` of `loop`: time of the last playback. -/
  delayMillis : Nat
  /-- `static unsigned long soundDelay` of `loop`: the interval. -/
  soundDelay : Nat
  /-- `static bool activeState` of `loop`. -/
  activeState : Bool
  /-- `static int previousSounds[3]` of `playSound`. -/
  previousSounds : SoundBuf
  /-- `static int oldVolume` of `loop`. -/
  oldVolume : Int
  /-- `static int previousLightReading` of `loop`. -/
  previousLightReading : Int
  /-- `static unsigned long delayedReactionMillis` of `loop`. -/
  delayedReactionMillis : Nat
  /-- Level last written to `PIN_LED_ACTIVATE`. -/
  ledActivate : Bool
  /-- Level last written to `PIN_LED_BUILTIN`. -/
  ledBuiltin : Bool
  deriving DecidableEq, Repr

/-- The state when `loop` first runs: statics are zero initialised, `activeState = false`,
output pins low. -/
def boot : State :=
  { delayMillis := 0
    soundDelay := 0
    activeState := false
    previousSounds := ⟨0, 0, 0⟩
    oldVolume := 0
    previousLightReading := 0
    delayedReactionMillis := 0
    ledActivate := false
    ledBuiltin := false }

/-! ## `playSound` -/

/-- The first `for` loop of `playSound`: is `randomSound` among the previous sounds? -/
def matchFound (b : SoundBuf) (randomSound : Int) : Bool :=
  (List.range numberOfSoundsToCheck).foldl
    (fun flag i => if b.get i == randomSound then true else flag) false

/-- The second `for` loop of `playSound`: `previousSounds[i] = previousSounds[i + 1]`
for `i = 0 .. numberOfSoundsToCheck - 2`. -/
def rotate (b : SoundBuf) : SoundBuf :=
  (List.range (numberOfSoundsToCheck - 1)).foldl (fun b i => b.set i (b.get (i + 1))) b

/-- One pass through the body of `while (1)` in `playSound` with the draw `randomSound`:
the new state, the bytes written and whether the pass reached `break`. -/
def playSoundPass (st : State) (randomSound : Int) : State × List Nat × Bool :=
  let st := { st with ledBuiltin := true }
  if matchFound st.previousSounds randomSound = false then
    ({ st with previousSounds := (rotate st.previousSounds).set (numberOfSoundsToCheck - 1) randomSound },
     playSoundOnModule (toByte randomSound), true)
  else
    (st, [], false)

/-- The `while (1)` loop of `playSound` over the raw values of the generator: each pass
draws `random(2, numberOfSoundsAvailable + 1)` from the next raw value.  The result is the
state at `break`, the bytes written and the raw values not consumed; `none` when the raw
values run out before a pass reaches `break`. -/
def playSoundLoop (st : State) : List Nat → Option (State × List Nat × List Nat)
  | [] => none
  | raw :: rest =>
    match playSoundPass st (random raw 2 (numberOfSoundsAvailable + 1)) with
    | (st1, out, true) => some (st1, out, rest)
    | (st1, out, false) =>
      (playSoundLoop st1 rest).map (fun r => (r.1, out ++ r.2.1, r.2.2))

/-- The function `playSound`: the loop, then `digitalWrite(PIN_LED_BUILTIN, LOW)`. -/
def playSound (st : State) (rand : List Nat) : Option (State × List Nat × List Nat) :=
  (playSoundLoop st rand).map (fun r => ({ r.1 with ledBuiltin := false }, r.2.1, r.2.2))

/-! ## `loop` -/

/-- Conversion of a `long` to `unsigned long`, as at `soundDelay = random(30000, 900000)`. -/
def toUInt32 (x : Int) : Nat := (x % 4294967296).toNat

/-- The values the calls of `millis()` return during one run of `loop`, by call site.
`millis()` returns an `unsigned long`: a value below `2 ^ 32`. -/
structure Clock where
  /-- `delayMillis = millis()` after a button press. -/
  atPress : Nat
  /-- `(delayMillis + soundDelay) < millis()`. -/
  atCheck : Nat
  /-- `delayMillis = millis()` when the interval has passed. -/
  atFire : Nat
  /-- `delayMillis = millis()` when the light turns the device on. -/
  atLightOn : Nat
  /-- `delayedReactionMillis = millis()`. -/
  atDim : Nat
  /-- `(delayedReactionMillis + 3000) < millis()`. -/
  atGrace : Nat
  deriving DecidableEq, Repr

/-- A clock whose every call of `millis()` returns `now`. -/
def Clock.const (now : Nat) : Clock := ⟨now, now, now, now, now, now⟩

/-- What one run of `loop` reads from the hardware; pin levels are `true` for `HIGH`,
analog readings are the 10-bit values `0..1023` of `analogRead`. -/
structure Inputs where
  /-- `buttonActivate.wasPressed()` after `buttonActivate.read()`. -/
  wasPressed : Bool
  selector1 : Bool
  selector2 : Bool
  selector3 : Bool
  selector4 : Bool
  selector5 : Bool
  /-- `analogRead(PIN_POT_VOLUME)`. -/
  potVolume : Nat
  /-- `digitalRead(PIN_SWITCH_SENSOR)`. -/
  switchSensor : Bool
  /-- `analogRead(PIN_PHOTO_RESISTOR)`. -/
  photoResistor : Nat
  clock : Clock
  deriving DecidableEq, Repr

/-- The block "Read activate button" of `loop`. -/
def buttonStep (st : State) (wasPressed : Bool) (now : Nat) (rand : List Nat) :
    Option (State × List Nat × List Nat) :=
  if wasPressed then
    let st := { st with activeState := !st.activeState }
    if st.activeState then
      playSound { st with delayMillis := now } rand
    else
      some (st, [], rand)
  else
    some (st, [], rand)

/-- The statement `digitalWrite(PIN_LED_ACTIVATE, activeState)` of `loop`. -/
def ledStep (st : State) : State :=
  { st with ledActivate := st.activeState }

/-- The block "Set delay" of `loop`.  The first branch draws from the generator; the
result is `none` when it has no raw value left. -/
def delayStep (st : State) (sel1 sel2 sel3 sel4 sel5 : Bool) (rand : List Nat) :
    Option (State × List Nat) :=
  if digitalRead sel1 = 0 then
    match rand with
    | [] => none
    | raw :: rest => some ({ st with soundDelay := toUInt32 (random raw 30000 900000) }, rest)
  else if digitalRead sel2 = 0 then
    some ({ st with soundDelay := 30000 }, rand)
  else if digitalRead sel3 = 0 then
    some ({ st with soundDelay := 60000 }, rand)
  else if digitalRead sel4 = 0 then
    some ({ st with soundDelay := 300000 }, rand)
  else if digitalRead sel5 = 0 then
    some ({ st with soundDelay := 900000 }, rand)
  else
    some ({ st with soundDelay := 500 }, rand)

/-- The block "Play sound" of `loop`; `atCheck` and `atFire` are the values of its two
calls of `millis()`. -/
def intervalStep (st : State) (atCheck atFire : Nat) (rand : List Nat) :
    Option (State × List Nat × List Nat) :=
  if st.activeState then
    if wrap32 (st.delayMillis + st.soundDelay) < atCheck then
      playSound { st with delayMillis := atFire } rand
    else
      some (st, [], rand)
  else
    some (st, [], rand)

/-- The value `map(1023 - analogRead(PIN_POT_VOLUME), 0, 1023, 10, 30)`. -/
def mappedVolume (pot : Nat) : Int :=
  let volumeReading : Int := 1023 - (pot : Int)
  map volumeReading 0 1023 10 30

/-- The block "Set volume" of `loop`. -/
def volumeStep (st : State) (pot : Nat) : State × List Nat :=
  let volume := mappedVolume pot
  if volume != st.oldVolume then
    ({ st with oldVolume := volume }, setVolume (toUInt16 volume))
  else
    (st, [])

/-- The value `map(1023 - analogRead(PIN_PHOTO_RESISTOR), 0, 1023, 0, 255)`. -/
def normalizedLight (photo : Nat) : Int :=
  let lightReading : Int := 1023 - (photo : Int)
  map lightReading 0 1023 0 255

/-- The block "Detect light changes" of `loop`; `atLightOn`, `atDim` and `atGrace` are the
values of its three calls of `millis()`. -/
def lightStep (st : State) (switchSensor : Bool) (photo : Nat)
    (atLightOn atDim atGrace : Nat) : State × List Nat :=
  if digitalRead switchSensor = 0 then
    let lightReading := normalizedLight photo
    let r : State × List Nat :=
      if st.previousLightReading ≥ lightLevelTrigger ∧ lightReading < lightLevelTrigger then
        if !st.activeState then
          ({ st with delayMillis := atLightOn, activeState := true }, playSoundOnModule 1)
        else
          (st, [])
      else
        (st, [])
    let st1 := r.1
    let st2 :=
      if lightReading < lightLevelTrigger then
        { st1 with delayedReactionMillis := atDim }
      else if wrap32 (st1.delayedReactionMillis + 3000) < atGrace then
        { st1 with activeState := false }
      else
        st1
    ({ st2 with previousLightReading := lightReading }, r.2)
  else
    (st, [])

/-- One run of `loop`: the new state, the bytes written to the serial port and the raw
values of the generator left over; `none` when the generator runs out of raw values. -/
def loop (st : State) (inp : Inputs) (rand : List Nat) :
    Option (State × List Nat × List Nat) :=
  match buttonStep st inp.wasPressed inp.clock.atPress rand with
  | none => none
  | some (st1, out1, rand1) =>
    let st2 := ledStep st1
    match delayStep st2 inp.selector1 inp.selector2 inp.selector3 inp.selector4
        inp.selector5 rand1 with
    | none => none
    | some (st3, rand3) =>
      match intervalStep st3 inp.clock.atCheck inp.clock.atFire rand3 with
      | none => none
      | some (st4, out4, rand4) =>
        let v := volumeStep st4 inp.potVolume
        let l := lightStep v.1 inp.switchSensor inp.photoResistor
          inp.clock.atLightOn inp.clock.atDim inp.clock.atGrace
        some (l.1, out1 ++ out4 ++ v.2 ++ l.2, rand4)

/-- Successive runs of `loop`, one per element of `inps`: the final state, the bytes each
run wrote, and the raw values left over. -/
def run (st : State) : List Inputs → List Nat → Option (State × List (List Nat) × List Nat)
  | [], rand => some (st, [], rand)
  | inp :: inps, rand =>
    match loop st inp rand with
    | none => none
    | some (st1, out, rand1) =>
      (run st1 inps rand1).map (fun r => (r.1, out :: r.2.1, r.2.2))

/-- Run `n` calls of `playSound` one after the other: the final state, the bytes each call
wrote, and the raw values left over. -/
def playSoundCalls : Nat → State → List Nat → Option (State × List (List Nat) × List Nat)
  | 0, st, rand => some (st, [], rand)
  | n + 1, st, rand =>
    match playSound st rand with
    | none => none
    | some (st1, out, rand1) =>
      (playSoundCalls n st1 rand1).map (fun r => (r.1, out :: r.2.1, r.2.2))

/-- The inputs of a run of `loop` with the light sensor switched on, no button press, no
selector active, the volume potentiometer at 0, the photoresistor reading `photo` and every
call of `millis()` returning `now`. -/
def lightInput (photo now : Nat) : Inputs :=
  { wasPressed := false
    selector1 := true
    selector2 := true
    selector3 := true
    selector4 := true
    selector5 := true
    potVolume := 0
    switchSensor := false
    photoResistor := photo
    clock := Clock.const now }

/-- The history invariant of `playSound`: `hist` lists the tracks accepted since boot,
oldest first; every one lies in `2..9`, differs from the three accepted before it, and
the buffer holds the last three of them after the zeros it starts with. -/
def HistInv (hist : List Nat) (b : SoundBuf) : Prop :=
  (∀ t ∈ hist, 2 ≤ t ∧ t ≤ 9) ∧
  (∀ (i j a c : Nat), i < j → j ≤ i + 3 → hist[i]? = some a → hist[j]? = some c → a ≠ c) ∧
  b.toList = (([0, 0, 0] : List Int) ++ hist.map Int.ofNat).drop hist.length

/-- The stored volume agrees with the most recent volume frame: `last` is the last frame
`setVolume` wrote, `none` while none has been written; when there is one, its volume byte
is the value of `oldVolume`. -/
def VolumeSync (st : State) (last : Option (List Nat)) : Prop :=
  last = none ∨
    ∃ v : Nat, (v : Int) = st.oldVolume ∧
      last = some [0xAA, 0x13, 0x01, v, (0xAA + 0x13 + 0x01 + v) % 256]

/-! ## Lemmas on the helpers -/

theorem and_255 (s : Nat) : s &&& 255 = s % 256 :=
  Nat.and_pow_two_sub_one_eq_mod s 8

theorem serialWrite_and (x : Nat) : serialWrite (x &&& 0x00FF) = x % 256 := by
  simp [serialWrite, and_255]

theorem random_draw (raw : Nat) :
    random raw 2 (numberOfSoundsAvailable + 1) = ((raw % 8 + 2 : Nat) : Int) := by
  have h : random raw 2 (numberOfSoundsAvailable + 1) = Int.tmod (raw : Int) 8 + 2 := by
    simp only [random, randomBelow, numberOfSoundsAvailable]
    norm_num
  rw [h, Int.tmod_eq_emod (by omega) (by omega)]
  omega

theorem random_delay (raw : Nat) :
    toUInt32 (random raw 30000 900000) = raw % 870000 + 30000 := by
  have h : random raw 30000 900000 = Int.tmod (raw : Int) 870000 + 30000 := by
    simp only [random, randomBelow]
    norm_num
  rw [h, Int.tmod_eq_emod (by omega) (by omega)]
  simp only [toUInt32]
  omega

theorem toByte_small (n : Nat) (h : n < 256) : toByte (n : Int) = n := by
  simp only [toByte]
  omega

theorem matchFound_eq (b : SoundBuf) (d : Int) :
    matchFound b d = decide (d ∈ b.toList) := by
  simp only [matchFound, numberOfSoundsToCheck, List.range, List.range.loop, List.foldl,
    SoundBuf.get, SoundBuf.toList]
  split_ifs with h2 h1 h0 <;> simp only [beq_iff_eq] at * <;> simp <;> omega

theorem rotate_set (b : SoundBuf) (d : Int) :
    (rotate b).set (numberOfSoundsToCheck - 1) d = ⟨b.s1, b.s2, d⟩ := by
  simp [rotate, numberOfSoundsToCheck, List.range, List.range.loop, SoundBuf.get, SoundBuf.set]

theorem playSoundOnModule_byte (s : Nat) (hs : s < 256) :
    playSoundOnModule s = [0xAA, 0x07, 0x02, 0, s, (0xB3 + s) % 256] := by
  have h8 : s >>> 8 = 0 := by
    rw [Nat.shiftRight_eq_div_pow]
    omega
  have hm : s % 256 = s := Nat.mod_eq_of_lt hs
  simp only [playSoundOnModule, h8, and_255, serialWrite, hm]
  norm_num

theorem playSoundPass_eq (st : State) (d : Int) :
    playSoundPass st d =
      if d ∈ st.previousSounds.toList then
        ({ st with ledBuiltin := true }, [], false)
      else
        ({ st with
            previousSounds := ⟨st.previousSounds.s1, st.previousSounds.s2, d⟩
            ledBuiltin := true },
          playSoundOnModule (toByte d), true) := by
  simp only [playSoundPass, matchFound_eq, rotate_set]
  by_cases h : d ∈ st.previousSounds.toList <;> simp [h]

theorem playSound_cons (st : State) (raw : Nat) (rest : List Nat) :
    playSound st (raw :: rest) =
      if random raw 2 (numberOfSoundsAvailable + 1) ∈ st.previousSounds.toList then
        playSound { st with ledBuiltin := true } rest
      else
        some ({ st with
                previousSounds := ⟨st.previousSounds.s1, st.previousSounds.s2,
                  random raw 2 (numberOfSoundsAvailable + 1)⟩
                ledBuiltin := false },
              playSoundOnModule (toByte (random raw 2 (numberOfSoundsAvailable + 1))), rest) := by
  simp only [playSound, playSoundLoop, playSoundPass_eq]
  by_cases h : random raw 2 (numberOfSoundsAvailable + 1) ∈ st.previousSounds.toList
  · simp only [h, if_true, Option.map_map]
    congr 1
  · simp [h]

/-! ## The sound module driver: `playSoundOnModule` -/

/-- C10: for every byte `s` the function `playSoundOnModule` writes exactly the six bytes
`AA 07 02 hi lo ck` with `hi = s / 256` written before `lo = s mod 256` and
`ck = (AA + 07 + 02 + hi + lo) mod 256`; from `s = 77` on the sum exceeds 255 and the
checksum byte is the sum reduced modulo 256, which is `s - 77`. -/
theorem playSoundOnModule_frame (s : Nat) (hs : s < 256) :
    playSoundOnModule s =
        [0xAA, 0x07, 0x02, s / 256, s % 256, (0xAA + 0x07 + 0x02 + s / 256 + s % 256) % 256]
      ∧ (77 ≤ s → 255 < 0xAA + 0x07 + 0x02 + s / 256 + s % 256
          ∧ (playSoundOnModule s)[5]? = some (s - 77)) := by
  have hd : s / 256 = 0 := by omega
  have hm : s % 256 = s := Nat.mod_eq_of_lt hs
  rw [playSoundOnModule_byte s hs, hd, hm]
  refine ⟨by norm_num, fun h => ⟨by omega, ?_⟩⟩
  simp only [List.getElem?_cons_succ, List.getElem?_cons_zero, Option.some.injEq]
  omega

/-- C10 at the byte 200, whose checksum sum 379 exceeds 255. -/
theorem playSoundOnModule_frame_witness :
    200 < 256 ∧ playSoundOnModule 200 = [0xAA, 0x07, 0x02, 0, 200, 123] :=
  ⟨by decide, (playSoundOnModule_frame 200 (by decide)).1⟩

/-! ## Random selection without immediate repeats: `playSound` -/

/-- C1: one pass of the loop of `playSound` with any draw `d` rejects `d` when it equals
one of the three buffer entries (buffer unchanged, nothing written, the loop goes on) and
otherwise stores `[old[1], old[2], d]`, writes the one play frame for `d` and leaves the
loop.  Over the generator, every draw `random(2, 10)` lies in `2..9`; when it is in the
buffer `playSound` continues with the next raw value from the same buffer having written
nothing, and otherwise it returns with the buffer `[old[1], old[2], d]` and exactly the
frame `AA 07 02 00 d ck` written. -/
theorem playSound_draw (st : State) :
    (∀ d : Int,
      playSoundPass st d =
        if d = st.previousSounds.s0 ∨ d = st.previousSounds.s1 ∨ d = st.previousSounds.s2 then
          ({ st with ledBuiltin := true }, [], false)
        else
          ({ st with
              previousSounds := ⟨st.previousSounds.s1, st.previousSounds.s2, d⟩
              ledBuiltin := true },
            playSoundOnModule (toByte d), true)) ∧
    (∀ (raw : Nat) (rest : List Nat),
      2 ≤ random raw 2 (numberOfSoundsAvailable + 1) ∧
      random raw 2 (numberOfSoundsAvailable + 1) ≤ 9 ∧
      playSound st (raw :: rest) =
        if random raw 2 (numberOfSoundsAvailable + 1) = st.previousSounds.s0
            ∨ random raw 2 (numberOfSoundsAvailable + 1) = st.previousSounds.s1
            ∨ random raw 2 (numberOfSoundsAvailable + 1) = st.previousSounds.s2 then
          playSound { st with ledBuiltin := true } rest
        else
          some ({ st with
                  previousSounds := ⟨st.previousSounds.s1, st.previousSounds.s2,
                    random raw 2 (numberOfSoundsAvailable + 1)⟩
                  ledBuiltin := false },
                [0xAA, 0x07, 0x02, 0, (random raw 2 (numberOfSoundsAvailable + 1)).toNat,
                  0xB3 + (random raw 2 (numberOfSoundsAvailable + 1)).toNat],
                rest)) := by
  constructor
  · intro d
    rw [playSoundPass_eq]
    simp only [SoundBuf.toList, List.mem_cons, List.mem_singleton, List.not_mem_nil, or_false]
  · intro raw rest
    have hr := random_draw raw
    have hlt : raw % 8 < 8 := Nat.mod_lt _ (by decide)
    refine ⟨by omega, by omega, ?_⟩
    rw [playSound_cons]
    simp only [SoundBuf.toList, List.mem_cons, List.mem_singleton, List.not_mem_nil, or_false]
    split_ifs with h
    · rfl
    · rw [hr, toByte_small _ (by omega), playSoundOnModule_byte _ (by omega)]
      have e : (0xB3 + (raw % 8 + 2)) % 256 = 0xB3 + (raw % 8 + 2) := by omega
      simp only [e, Int.toNat_ofNat]

theorem playSound_some (st st1 : State) (rand out rest : List Nat)
    (h : playSound st rand = some (st1, out, rest)) :
    ∃ d : Nat, 2 ≤ d ∧ d ≤ 9 ∧ (d : Int) ∉ st.previousSounds.toList ∧
      st1 = { st with
              previousSounds := ⟨st.previousSounds.s1, st.previousSounds.s2, (d : Int)⟩
              ledBuiltin := false } ∧
      out = playSoundOnModule d ∧ rest.length < rand.length := by
  induction rand generalizing st with
  | nil => simp [playSound, playSoundLoop] at h
  | cons raw tl ih =>
    rw [playSound_cons, random_draw] at h
    have hlt : raw % 8 < 8 := Nat.mod_lt _ (by decide)
    split_ifs at h with hm
    · obtain ⟨d, h2, h9, hd, hst, hout, hlen⟩ := ih _ h
      exact ⟨d, h2, h9, hd, hst, hout, by simp only [List.length_cons]; omega⟩
    · simp only [Option.some.injEq, Prod.mk.injEq] at h
      obtain ⟨hst, hout, hrest⟩ := h
      refine ⟨raw % 8 + 2, by omega, by omega, hm, hst.symm, ?_, by simp [hrest]⟩
      rw [← hout, toByte_small _ (by omega)]

theorem HistInv.boot : HistInv [] boot.previousSounds := by
  refine ⟨by simp, by simp, by simp [Gymotivator.boot, SoundBuf.toList]⟩

theorem HistInv.step {hist : List Nat} {b : SoundBuf} (h : HistInv hist b) (d : Nat)
    (h2 : 2 ≤ d) (h9 : d ≤ 9) (hn : (d : Int) ∉ b.toList) :
    HistInv (hist ++ [d]) ⟨b.s1, b.s2, (d : Int)⟩ := by
  obtain ⟨hr, hw, hb⟩ := h
  refine ⟨?_, ?_, ?_⟩
  · intro t ht
    rcases List.mem_append.1 ht with ht | ht
    · exact hr t ht
    · rw [List.mem_singleton.1 ht]
      exact ⟨h2, h9⟩
  · intro i j a c hij hj3 ha hc
    have hjl : j < (hist ++ [d]).length := (List.getElem?_eq_some.1 hc).1
    rw [List.length_append, List.length_singleton] at hjl
    by_cases hj : j < hist.length
    · rw [List.getElem?_append_left (by omega)] at ha hc
      exact hw i j a c hij hj3 ha hc
    · have hje : j = hist.length := by omega
      rw [List.getElem?_append_left (by omega)] at ha
      rw [List.getElem?_append_right (by omega), hje] at hc
      simp only [Nat.sub_self, List.getElem?_cons_zero, Option.some.injEq] at hc
      have hmem : (a : Int) ∈ b.toList := by
        rw [hb, List.mem_iff_getElem?]
        refine ⟨i + 3 - hist.length, ?_⟩
        rw [List.getElem?_drop, List.getElem?_append_right (by simp; omega)]
        have e : hist.length + (i + 3 - hist.length) - ([0, 0, 0] : List Int).length = i := by
          simp only [List.length_cons, List.length_nil]
          omega
        rw [e, List.getElem?_map, ha]
        rfl
      intro hac
      rw [hac, ← hc] at hmem
      exact hn hmem
  · have e : ([0, 0, 0] : List Int) ++ List.map Int.ofNat (hist ++ [d])
        = (([0, 0, 0] : List Int) ++ List.map Int.ofNat hist) ++ [(d : Int)] := by
      simp
    rw [List.length_append, List.length_singleton, e, ← List.drop_drop,
      List.drop_append_of_le_length (by simp; omega), ← hb]
    simp [SoundBuf.toList]

theorem playSoundCalls_inv (n : Nat) :
    ∀ (hist : List Nat) (st st1 : State) (rand : List Nat) (outs : List (List Nat))
      (rest : List Nat), HistInv hist st.previousSounds →
      playSoundCalls n st rand = some (st1, outs, rest) →
      ∃ tracks : List Nat, tracks.length = n ∧ outs = tracks.map playSoundOnModule ∧
        HistInv (hist ++ tracks) st1.previousSounds := by
  induction n with
  | zero =>
    intro hist st st1 rand outs rest hinv h
    simp only [playSoundCalls, Option.some.injEq, Prod.mk.injEq] at h
    obtain ⟨hst, hout, -⟩ := h
    exact ⟨[], rfl, by simp [← hout], by simpa [← hst] using hinv⟩
  | succ n ih =>
    intro hist st st1 rand outs rest hinv h
    simp only [playSoundCalls] at h
    cases hp : playSound st rand with
    | none => simp [hp] at h
    | some r =>
      obtain ⟨st2, out, rand2⟩ := r
      simp only [hp, Option.map_eq_some', Prod.mk.injEq] at h
      obtain ⟨⟨st3, outs3, rest3⟩, hc, hst, hout, -⟩ := h
      obtain ⟨d, h2, h9, hd, hst2, hout2, -⟩ := playSound_some _ _ _ _ _ hp
      have hinv2 : HistInv (hist ++ [d]) st2.previousSounds := by
        rw [hst2]
        exact hinv.step d h2 h9 hd
      obtain ⟨tracks, hlen, houts, hfin⟩ := ih _ _ _ _ _ _ hinv2 hc
      refine ⟨d :: tracks, by simp [hlen], ?_, ?_⟩
      · simp only [List.map_cons, ← hout, hout2, houts]
      · simpa [← hst] using hfin

/-- C2: after any number `n` of calls of `playSound` from the boot state, over any raw
values of the generator, the frames written are the play frames of `n` tracks that all lie
in `2..9`; each track differs from the (up to) three accepted before it, so no two of the
last three are equal; the buffer holds the last three of them after its initial zeros, and
two buffer entries can only be equal when they are zero. -/
theorem playSoundCalls_no_repeat (n : Nat) (rand : List Nat) (st : State)
    (outs : List (List Nat)) (rest : List Nat)
    (h : playSoundCalls n boot rand = some (st, outs, rest)) :
    ∃ tracks : List Nat,
      tracks.length = n ∧
      outs = tracks.map playSoundOnModule ∧
      (∀ t ∈ tracks, 2 ≤ t ∧ t ≤ 9) ∧
      (∀ (i j a c : Nat), i < j → j ≤ i + 3 → tracks[i]? = some a → tracks[j]? = some c → a ≠ c) ∧
      st.previousSounds.toList = (([0, 0, 0] : List Int) ++ tracks.map Int.ofNat).drop n ∧
      (∀ (i j : Nat) (x : Int), i < j → st.previousSounds.toList[i]? = some x →
        st.previousSounds.toList[j]? = some x → x = 0) := by
  obtain ⟨tracks, hlen, houts, hr, hw, hb⟩ := playSoundCalls_inv n [] boot st rand outs rest
    HistInv.boot h
  simp only [List.nil_append] at hr hw hb
  rw [hlen] at hb
  refine ⟨tracks, hlen, houts, hr, hw, hb, ?_⟩
  intro i j x hij hi hj
  have hjl : j < 3 := by
    have := (List.getElem?_eq_some.1 hj).1
    simpa [SoundBuf.toList] using this
  rw [hb, List.getElem?_drop] at hi hj
  by_contra hx
  have hi3 : ([0, 0, 0] : List Int).length ≤ n + i := by
    by_contra hlt
    rw [List.getElem?_append_left (by omega)] at hi
    have h3 : n + i < 3 := by simpa using hlt
    interval_cases hni : n + i <;> simp at hi <;> exact hx hi.symm
  rw [List.getElem?_append_right hi3, List.getElem?_map] at hi
  rw [List.getElem?_append_right (by omega), List.getElem?_map] at hj
  simp only [List.length_cons, List.length_nil, Option.map_eq_some'] at hi hj hi3
  obtain ⟨a, ha, hax⟩ := hi
  obtain ⟨c, hc, hcx⟩ := hj
  have hne := hw (n + i - 3) (n + j - 3) a c (by omega) (by omega) ha hc
  apply hne
  have : (Int.ofNat a) = Int.ofNat c := by rw [hax, hcx]
  exact Int.ofNat.inj this

/-- C2 on two calls that consume the raw values 0, 0, 1: the draws are 2, 2 and 3, the
second one is rejected. -/
theorem playSoundCalls_no_repeat_witness :
    playSoundCalls 2 boot [0, 0, 1]
        = some ({ boot with previousSounds := ⟨0, 2, 3⟩ },
            [[0xAA, 0x07, 0x02, 0, 2, 0xB5], [0xAA, 0x07, 0x02, 0, 3, 0xB6]], []) ∧
      ∃ tracks : List Nat,
        tracks.length = 2 ∧
        [[0xAA, 0x07, 0x02, 0, 2, 0xB5], [0xAA, 0x07, 0x02, 0, 3, 0xB6]]
          = tracks.map playSoundOnModule ∧
        (∀ t ∈ tracks, 2 ≤ t ∧ t ≤ 9) ∧
        (∀ (i j a c : Nat), i < j → j ≤ i + 3 → tracks[i]? = some a → tracks[j]? = some c → a ≠ c) ∧
        ({ boot with previousSounds := ⟨0, 2, 3⟩ } : State).previousSounds.toList
          = (([0, 0, 0] : List Int) ++ tracks.map Int.ofNat).drop 2 ∧
        (∀ (i j : Nat) (x : Int), i < j →
          ({ boot with previousSounds := ⟨0, 2, 3⟩ } : State).previousSounds.toList[i]? = some x →
          ({ boot with previousSounds := ⟨0, 2, 3⟩ } : State).previousSounds.toList[j]? = some x →
          x = 0) :=
  ⟨by decide, playSoundCalls_no_repeat 2 [0, 0, 1] _ _ [] (by decide)⟩

/-! ## The light step of `loop` -/

theorem lightStep_on (st : State) (photo atLightOn atDim atGrace : Nat) :
    lightStep st false photo atLightOn atDim atGrace =
      if normalizedLight photo < lightLevelTrigger then
        if st.previousLightReading ≥ lightLevelTrigger ∧ st.activeState = false then
          ({ st with
              delayMillis := atLightOn
              activeState := true
              delayedReactionMillis := atDim
              previousLightReading := normalizedLight photo }, playSoundOnModule 1)
        else
          ({ st with
              delayedReactionMillis := atDim
              previousLightReading := normalizedLight photo }, [])
      else if wrap32 (st.delayedReactionMillis + 3000) < atGrace then
        ({ st with activeState := false, previousLightReading := normalizedLight photo }, [])
      else
        ({ st with previousLightReading := normalizedLight photo }, []) := by
  simp only [lightStep, digitalRead]
  by_cases hl : normalizedLight photo < lightLevelTrigger
  · by_cases hp : st.previousLightReading ≥ lightLevelTrigger
    · cases ha : st.activeState <;> simp [hl, hp, ha]
    · simp [hl, hp]
  · by_cases hg : wrap32 (st.delayedReactionMillis + 3000) < atGrace <;> simp [hl, hg]

theorem lightStep_off (st : State) (photo atLightOn atDim atGrace : Nat) :
    lightStep st true photo atLightOn atDim atGrace = (st, []) := by
  simp [lightStep, digitalRead]

/-- C3: the light step turns the device on (active becomes true, the last-play time is
the value of `millis()`, the frame `AA 07 02 00 01 B4` of track 1 is written, the history
buffer is untouched) exactly when the sensor switch reads low, the previous normalized
reading is at least 185, the current one is below 185 and the device is idle; otherwise it
writes nothing, leaves the last-play time and the buffer alone and does not turn an idle
device on.  From boot, the photoresistor readings 220, 220, 421 (normalized 200, 200, 150)
write the track 1 frame in the third run of `loop` only, and the device is idle after the
second run and active after the third. -/
theorem lightStep_activation :
    (∀ (st : State) (sw : Bool) (photo atLightOn atDim atGrace : Nat),
      if sw = false ∧ st.previousLightReading ≥ 185 ∧ normalizedLight photo < 185
          ∧ st.activeState = false then
        (lightStep st sw photo atLightOn atDim atGrace).1.activeState = true ∧
        (lightStep st sw photo atLightOn atDim atGrace).1.delayMillis = atLightOn ∧
        (lightStep st sw photo atLightOn atDim atGrace).2 = [0xAA, 0x07, 0x02, 0x00, 0x01, 0xB4] ∧
        (lightStep st sw photo atLightOn atDim atGrace).1.previousSounds = st.previousSounds
      else
        (lightStep st sw photo atLightOn atDim atGrace).2 = [] ∧
        ((lightStep st sw photo atLightOn atDim atGrace).1.activeState = true →
          st.activeState = true) ∧
        (lightStep st sw photo atLightOn atDim atGrace).1.delayMillis = st.delayMillis ∧
        (lightStep st sw photo atLightOn atDim atGrace).1.previousSounds = st.previousSounds) ∧
    normalizedLight 220 = 200 ∧ normalizedLight 421 = 150 ∧
    (run boot [lightInput 220 5000, lightInput 220 5001] []).map
        (fun r => (r.1.activeState, r.2.1))
      = some (false, [[0xAA, 0x13, 0x01, 30, 0xDC], []]) ∧
    (run boot [lightInput 220 5000, lightInput 220 5001, lightInput 421 5002] []).map
        (fun r => (r.1.activeState, r.1.delayMillis, r.2.1))
      = some (true, 5002, [[0xAA, 0x13, 0x01, 30, 0xDC], [], [0xAA, 0x07, 0x02, 0x00, 0x01, 0xB4]]) := by
  refine ⟨?_, by decide, by decide, by decide, by decide⟩
  intro st sw photo atLightOn atDim atGrace
  have h1 : playSoundOnModule 1 = [0xAA, 0x07, 0x02, 0x00, 0x01, 0xB4] := by decide
  cases sw
  · rw [lightStep_on]
    simp only [lightLevelTrigger, true_and]
    by_cases hl : normalizedLight photo < 185
    · by_cases hp : st.previousLightReading ≥ 185
      · cases ha : st.activeState <;> simp [hl, hp, ha, h1]
      · simp [hl, hp]
    · by_cases hg : wrap32 (st.delayedReactionMillis + 3000) < atGrace <;> simp [hl, hg]
  · rw [lightStep_off]
    simp

/-- C4: the grace period is cut short when `delayedReactionMillis + 3000` wraps modulo
`2 ^ 32`.  The device is active and the light was last dim at 4294966296 ms, 1000 ms before
the counter wraps; 500 ms later the normalized reading is 200, and the light step clears
active although only 500 ms have passed: the sum wraps to 2000. -/
theorem lightStep_grace_wraps :
    normalizedLight 220 = 200 ∧
    4294966796 < 2 ^ 32 ∧
    4294966796 - 4294966296 = 500 ∧
    wrap32 (4294966296 + 3000) = 2000 ∧
    (lightStep
        { boot with
          activeState := true
          delayedReactionMillis := 4294966296
          previousLightReading := 150 }
        false 220 4294966796 4294966796 4294966796).1.activeState = false := by
  decide

/-- Away from the wrap the grace period holds: a reading below 185 stamps the last-dim
time and does not clear active, and a reading of at least 185 leaves active unchanged while
`delayedReactionMillis + 3000` stays below `2 ^ 32` and is not below `millis()`. -/
theorem lightStep_grace_no_wrap (st : State) (photo atLightOn atDim atGrace : Nat) :
    (normalizedLight photo < 185 →
      (lightStep st false photo atLightOn atDim atGrace).1.delayedReactionMillis = atDim ∧
      (st.activeState = true →
        (lightStep st false photo atLightOn atDim atGrace).1.activeState = true)) ∧
    (185 ≤ normalizedLight photo → st.delayedReactionMillis + 3000 < 2 ^ 32 →
      atGrace ≤ st.delayedReactionMillis + 3000 →
      (lightStep st false photo atLightOn atDim atGrace).1.activeState = st.activeState) := by
  rw [lightStep_on]
  simp only [lightLevelTrigger]
  constructor
  · intro hl
    by_cases hp : st.previousLightReading ≥ 185 ∧ st.activeState = false <;> simp [hl, hp]
  · intro hl hw hg
    have hw2 : wrap32 (st.delayedReactionMillis + 3000) = st.delayedReactionMillis + 3000 :=
      Nat.mod_eq_of_lt hw
    have hl2 : ¬ normalizedLight photo < 185 := by omega
    have hg2 : ¬ st.delayedReactionMillis + 3000 < atGrace := by omega
    simp [hl2, hw2, hg2]

/-- C5 as stated fails at exactly 3000 ms: the device is active, the light was last dim at
1000 ms, and at 4000 ms with the normalized reading 200 the light step leaves active
true. -/
theorem lightStep_grace_at_3000 :
    normalizedLight 220 = 200 ∧
    4000 - 1000 ≥ 3000 ∧
    (lightStep
        { boot with
          activeState := true
          delayedReactionMillis := 1000
          previousLightReading := 200 }
        false 220 4000 4000 4000).1.activeState = true := by
  decide

/-- C5 amended: in a run with the sensor switch low and a normalized reading of at least
185, when more than 3000 ms have passed since the last-dim time
(`delayedReactionMillis + 3000 < millis()`, with `millis()` a 32-bit value), active is
false after the light step. -/
theorem lightStep_deactivates (st : State) (photo atLightOn atDim atGrace : Nat)
    (hr : 185 ≤ normalizedLight photo) (h32 : atGrace < 2 ^ 32)
    (hg : st.delayedReactionMillis + 3000 < atGrace) :
    (lightStep st false photo atLightOn atDim atGrace).1.activeState = false := by
  rw [lightStep_on]
  have hw : wrap32 (st.delayedReactionMillis + 3000) = st.delayedReactionMillis + 3000 :=
    Nat.mod_eq_of_lt (by omega)
  have hl : ¬ normalizedLight photo < lightLevelTrigger := by
    simp only [lightLevelTrigger]
    omega
  simp [hl, hw, hg]

/-- C5 amended, at 3001 ms after the last-dim time. -/
theorem lightStep_deactivates_witness :
    (lightStep
        { boot with
          activeState := true
          delayedReactionMillis := 1000
          previousLightReading := 200 }
        false 220 4001 4001 4001).1.activeState = false :=
  lightStep_deactivates _ 220 4001 4001 4001 (by decide) (by decide) (by decide)

/-! ## The interval step of `loop` -/

/-- C6: playback comes early when `delayMillis + soundDelay` wraps modulo `2 ^ 32`.  The
device is active with the interval 60000 and last played at 4294917296 ms, 50000 ms before
the counter wraps; one millisecond later the interval step plays a track and resets the
last-play time, although 60000 ms have not passed: the sum wraps to 10000. -/
theorem intervalStep_fires_early :
    4294917296 ≤ 4294917297 ∧
    4294917297 < 2 ^ 32 ∧
    4294917297 < 4294917296 + 60000 ∧
    wrap32 (4294917296 + 60000) = 10000 ∧
    intervalStep
        { boot with activeState := true, delayMillis := 4294917296, soundDelay := 60000 }
        4294917297 4294917297 [0]
      = some ({ boot with
                activeState := true
                delayMillis := 4294917297
                soundDelay := 60000
                previousSounds := ⟨0, 0, 2⟩ },
              [0xAA, 0x07, 0x02, 0x00, 0x02, 0xB5], []) := by
  decide

/-- Away from the wrap there is no early playback: while `millis()` is below
`delayMillis + soundDelay` and the sum is below `2 ^ 32`, the interval step writes nothing
and changes nothing. -/
theorem intervalStep_not_early (st : State) (atCheck atFire : Nat) (rand : List Nat)
    (hw : st.delayMillis + st.soundDelay < 2 ^ 32)
    (h : atCheck < st.delayMillis + st.soundDelay) :
    intervalStep st atCheck atFire rand = some (st, [], rand) := by
  have hw2 : wrap32 (st.delayMillis + st.soundDelay) = st.delayMillis + st.soundDelay :=
    Nat.mod_eq_of_lt hw
  have hn : ¬ st.delayMillis + st.soundDelay < atCheck := by omega
  simp [intervalStep, hw2, hn]

/-- What the interval test does on every input, wrap included: the step does nothing
as long as `millis()` has not passed the sum `delayMillis + soundDelay` reduced modulo
`2 ^ 32`. -/
theorem intervalStep_waits_for_wrapped_sum (st : State) (atCheck atFire : Nat)
    (rand : List Nat) (h : atCheck ≤ wrap32 (st.delayMillis + st.soundDelay)) :
    intervalStep st atCheck atFire rand = some (st, [], rand) := by
  have hn : ¬ wrap32 (st.delayMillis + st.soundDelay) < atCheck := by omega
  simp [intervalStep, hn]

/-- C7 as stated fails at exactly the interval: the device is active with the interval
60000 and last played at 1000 ms; at 61000 ms the interval step neither plays nor resets
the last-play time. -/
theorem intervalStep_at_exact_interval :
    61000 - 1000 ≥ 60000 ∧
    intervalStep
        { boot with activeState := true, delayMillis := 1000, soundDelay := 60000 }
        61000 61000 [0]
      = some ({ boot with activeState := true, delayMillis := 1000, soundDelay := 60000 },
              [], [0]) := by
  decide

/-- C7 amended: with active true and `delayMillis + soundDelay` below `2 ^ 32`, the
interval step is one call of `playSound` with the last-play time reset to the value of
`millis()` when `delayMillis + soundDelay < millis()`, that is when more than the interval
has passed, and it does nothing otherwise; when that call returns, the last-play time is
the new one and exactly one play frame of a track in `2..9` outside the history buffer has
been written. -/
theorem intervalStep_fires_iff (st : State) (atCheck atFire : Nat) (rand : List Nat)
    (hact : st.activeState = true) (hw : st.delayMillis + st.soundDelay < 2 ^ 32) :
    (st.delayMillis + st.soundDelay < atCheck →
      intervalStep st atCheck atFire rand = playSound { st with delayMillis := atFire } rand ∧
      ∀ (st1 : State) (out rest : List Nat),
        intervalStep st atCheck atFire rand = some (st1, out, rest) →
        st1.delayMillis = atFire ∧
        ∃ d : Nat, 2 ≤ d ∧ d ≤ 9 ∧ (d : Int) ∉ st.previousSounds.toList ∧
          out = playSoundOnModule d ∧
          st1.previousSounds = ⟨st.previousSounds.s1, st.previousSounds.s2, (d : Int)⟩) ∧
    (atCheck ≤ st.delayMillis + st.soundDelay →
      intervalStep st atCheck atFire rand = some (st, [], rand)) := by
  have hw2 : wrap32 (st.delayMillis + st.soundDelay) = st.delayMillis + st.soundDelay :=
    Nat.mod_eq_of_lt hw
  constructor
  · intro h
    have he : intervalStep st atCheck atFire rand
        = playSound { st with delayMillis := atFire } rand := by
      simp [intervalStep, hact, hw2, h]
    refine ⟨he, ?_⟩
    intro st1 out rest hr
    rw [he] at hr
    obtain ⟨d, h2, h9, hd, hst, hout, -⟩ := playSound_some _ _ _ _ _ hr
    refine ⟨by rw [hst], d, h2, h9, hd, hout, by rw [hst]⟩
  · intro h
    have hn : ¬ st.delayMillis + st.soundDelay < atCheck := by omega
    simp [intervalStep, hw2, hn]

/-- C7 amended, one millisecond after the interval has passed: the step fires. -/
theorem intervalStep_fires_iff_witness :
    intervalStep
        { boot with activeState := true, delayMillis := 1000, soundDelay := 60000 }
        61001 61001 [0]
      = playSound
          { boot with activeState := true, delayMillis := 61001, soundDelay := 60000 } [0] :=
  ((intervalStep_fires_iff
      { boot with activeState := true, delayMillis := 1000, soundDelay := 60000 }
      61001 61001 [0] rfl (by decide)).1 (by decide)).1

/-! ## The button step of `loop` -/

/-- C8: without a press edge the button step changes nothing and writes nothing.  On a
press edge of an active device it only clears active.  On a press edge of an idle device it
sets active, sets the last-play time to the value of `millis()` and is one call of
`playSound`; when that call returns, exactly one play frame of a track in `2..9` outside
the history buffer has been written. -/
theorem buttonStep_toggle (st : State) (now : Nat) (rand : List Nat) :
    buttonStep st false now rand = some (st, [], rand) ∧
    buttonStep st true now rand =
      (if st.activeState = true then
        some ({ st with activeState := false }, [], rand)
      else
        playSound { st with activeState := true, delayMillis := now } rand) ∧
    (∀ (st1 : State) (out rest : List Nat),
      playSound { st with activeState := true, delayMillis := now } rand
        = some (st1, out, rest) →
      st1.activeState = true ∧ st1.delayMillis = now ∧
      ∃ d : Nat, 2 ≤ d ∧ d ≤ 9 ∧ (d : Int) ∉ st.previousSounds.toList ∧
        out = playSoundOnModule d ∧
        st1.previousSounds = ⟨st.previousSounds.s1, st.previousSounds.s2, (d : Int)⟩) := by
  refine ⟨by simp [buttonStep], ?_, ?_⟩
  · cases ha : st.activeState <;> simp [buttonStep, ha]
  · intro st1 out rest hr
    obtain ⟨d, h2, h9, hd, hst, hout, -⟩ := playSound_some _ _ _ _ _ hr
    refine ⟨by rw [hst], by rw [hst], d, h2, h9, hd, hout, by rw [hst]⟩

/-! ## The selector step of `loop` -/

/-- C9: whatever the state, the interval is decided by the first selector that reads low.
Selector 1 low: the next raw value of the generator is consumed and the interval is
`raw mod 870000 + 30000`, a value in `[30000, 900000)`, whatever the other selectors read,
and every value of that range is drawn for some raw value.  Selector 1 high: no raw value
is consumed and the interval is 30000, 60000, 300000, 900000 for the first low selector
among 2, 3, 4, 5, and 500 when none is low. -/
theorem delayStep_interval (st : State) (sel2 sel3 sel4 sel5 : Bool) :
    (∀ (raw : Nat) (rest : List Nat),
      delayStep st false sel2 sel3 sel4 sel5 (raw :: rest)
        = some ({ st with soundDelay := raw % 870000 + 30000 }, rest) ∧
      30000 ≤ raw % 870000 + 30000 ∧ raw % 870000 + 30000 < 900000) ∧
    (∀ (v : Nat) (rest : List Nat), 30000 ≤ v → v < 900000 →
      delayStep st false sel2 sel3 sel4 sel5 ((v - 30000) :: rest)
        = some ({ st with soundDelay := v }, rest)) ∧
    (∀ rand : List Nat,
      delayStep st true sel2 sel3 sel4 sel5 rand =
        some ({ st with soundDelay :=
                  if sel2 = false then 30000
                  else if sel3 = false then 60000
                  else if sel4 = false then 300000
                  else if sel5 = false then 900000
                  else 500 }, rand)) := by
  have hcons : ∀ (raw : Nat) (rest : List Nat),
      delayStep st false sel2 sel3 sel4 sel5 (raw :: rest)
        = some ({ st with soundDelay := raw % 870000 + 30000 }, rest) := by
    intro raw rest
    simp [delayStep, digitalRead, random_delay]
  refine ⟨?_, ?_, ?_⟩
  · intro raw rest
    have hlt : raw % 870000 < 870000 := Nat.mod_lt _ (by decide)
    exact ⟨hcons raw rest, by omega, by omega⟩
  · intro v rest h1 h2
    rw [hcons]
    have e : (v - 30000) % 870000 + 30000 = v := by omega
    rw [e]
  · intro rand
    cases sel2 <;> cases sel3 <;> cases sel4 <;> cases sel5 <;> simp [delayStep, digitalRead]

/-! ## The sound module driver: `setVolume` and `stopPlayback` -/

theorem mappedVolume_eq (r : Nat) (hr : r ≤ 1023) :
    mappedVolume r = (((1023 - r) * 20 / 1023 + 10 : Nat) : Int) := by
  simp only [mappedVolume, map]
  rw [Int.tdiv_eq_ediv (by omega) (by omega)]
  omega

theorem normalizedLight_eq (r : Nat) (hr : r ≤ 1023) :
    normalizedLight r = (((1023 - r) * 255 / 1023 : Nat) : Int) := by
  simp only [normalizedLight, map]
  rw [Int.tdiv_eq_ediv (by omega) (by omega)]
  omega

/-- C11: for every input `v` (every unsigned 16-bit value among them), with
`c = min v 30`, `setVolume` writes exactly the five bytes `AA 13 01 c ck` with
`ck = (AA + 13 + 01 + c) mod 256`; the volume byte is at most 30 and every input above 30
writes the frame of the input 30. -/
theorem setVolume_frame (v : Nat) :
    setVolume v = [0xAA, 0x13, 0x01, min v 30, (0xAA + 0x13 + 0x01 + min v 30) % 256] ∧
    min v 30 ≤ 30 ∧
    (30 < v → setVolume v = setVolume 30) := by
  have hc : (if v > 30 then 30 else v) = min v 30 := by
    split_ifs <;> omega
  have hm : min v 30 % 256 = min v 30 := Nat.mod_eq_of_lt (by omega)
  have h : setVolume v
      = [0xAA, 0x13, 0x01, min v 30, (0xAA + 0x13 + 0x01 + min v 30) % 256] := by
    simp only [setVolume, hc, and_255, serialWrite, hm]
    norm_num
  refine ⟨h, by omega, fun hv => ?_⟩
  have e : min v 30 = 30 := by omega
  rw [h, e]
  decide

/-- C16: `stopPlayback` writes exactly the four bytes `AA 04 00 AE`, and the last byte is
the checksum of the other frames' convention: `AE = (AA + 04 + 00) mod 256`. -/
theorem stopPlayback_frame :
    stopPlayback = [0xAA, 0x04, 0x00, 0xAE] ∧ 0xAE = (0xAA + 0x04 + 0x00) % 256 := by
  decide

/-! ## The analog mappings of `loop` -/

/-- C12: for raw potentiometer readings `r1 ≤ r2 ≤ 1023` the mapped volume is
`(1023 - r) * 20 / 1023 + 10` with truncating division, it lies in `10..30`, it is the
value `setVolume` receives, and the volume of the smaller reading is at least the volume
of the larger one. -/
theorem mappedVolume_range_mono (r1 r2 : Nat) (h12 : r1 ≤ r2) (h2 : r2 ≤ 1023) :
    mappedVolume r1 = (((1023 - r1) * 20 / 1023 + 10 : Nat) : Int) ∧
    mappedVolume r2 = (((1023 - r2) * 20 / 1023 + 10 : Nat) : Int) ∧
    10 ≤ mappedVolume r1 ∧ mappedVolume r1 ≤ 30 ∧
    10 ≤ mappedVolume r2 ∧ mappedVolume r2 ≤ 30 ∧
    toUInt16 (mappedVolume r1) = (1023 - r1) * 20 / 1023 + 10 ∧
    toUInt16 (mappedVolume r2) = (1023 - r2) * 20 / 1023 + 10 ∧
    mappedVolume r2 ≤ mappedVolume r1 := by
  have e1 := mappedVolume_eq r1 (by omega)
  have e2 := mappedVolume_eq r2 h2
  refine ⟨e1, e2, by omega, by omega, by omega, by omega, ?_, ?_, by omega⟩
  · rw [e1]
    simp only [toUInt16]
    omega
  · rw [e2]
    simp only [toUInt16]
    omega

/-- C12 at the readings 0 and 1023: the volumes are 30 and 10. -/
theorem mappedVolume_range_mono_witness :
    mappedVolume 0 = 30 ∧ mappedVolume 1023 = 10 ∧ mappedVolume 1023 ≤ mappedVolume 0 :=
  ⟨(mappedVolume_range_mono 0 1023 (by decide) (by decide)).1,
   (mappedVolume_range_mono 0 1023 (by decide) (by decide)).2.1,
   (mappedVolume_range_mono 0 1023 (by decide) (by decide)).2.2.2.2.2.2.2.2⟩

/-- C13: for a raw photoresistor reading `r ≤ 1023` the normalized reading is
`(1023 - r) * 255 / 1023` with truncating division and lies in `0..255`; the reading 1023
gives 0 and the reading 0 gives 255. -/
theorem normalizedLight_range (r : Nat) (hr : r ≤ 1023) :
    normalizedLight r = (((1023 - r) * 255 / 1023 : Nat) : Int) ∧
    0 ≤ normalizedLight r ∧ normalizedLight r ≤ 255 ∧
    normalizedLight 1023 = 0 ∧ normalizedLight 0 = 255 := by
  have e := normalizedLight_eq r hr
  refine ⟨e, by omega, by omega, by decide, by decide⟩

/-- C13 at the reading 421: the normalized reading is 150. -/
theorem normalizedLight_range_witness :
    421 ≤ 1023 ∧ normalizedLight 421 = 150 :=
  ⟨by decide, (normalizedLight_range 421 (by decide)).1⟩

/-! ## One run of `loop`, step by step -/

theorem buttonStep_some (st st1 : State) (p : Bool) (now : Nat) (rand out1 rand1 : List Nat)
    (h : buttonStep st p now rand = some (st1, out1, rand1)) :
    st1 = { st with
            activeState := st1.activeState
            delayMillis := st1.delayMillis
            previousSounds := st1.previousSounds
            ledBuiltin := st1.ledBuiltin } ∧
    st1.activeState = (if p then !st.activeState else st.activeState) ∧
    (if p = true ∧ st.activeState = false then
      st1.delayMillis = now ∧ ∃ d : Nat, 2 ≤ d ∧ d ≤ 9 ∧ out1 = playSoundOnModule d
    else
      st1.delayMillis = st.delayMillis ∧ out1 = [] ∧ rand1 = rand) := by
  cases p
  · simp only [buttonStep, Bool.false_eq_true, if_false, Option.some.injEq,
      Prod.mk.injEq] at h
    obtain ⟨hst, hout, hrand⟩ := h
    subst hst
    simp [hout.symm, hrand.symm]
  · cases ha : st.activeState
    · simp only [buttonStep, ha, Bool.not_false, if_true] at h
      obtain ⟨d, h2, h9, -, hst, hout, -⟩ := playSound_some _ _ _ _ _ h
      subst hst
      simp only [and_self, if_true, true_and]
      exact ⟨rfl, d, h2, h9, hout⟩
    · simp only [buttonStep, ha, Bool.not_true, if_true, Bool.false_eq_true, if_false,
        Option.some.injEq, Prod.mk.injEq] at h
      obtain ⟨hst, hout, hrand⟩ := h
      subst hst
      simp [hout.symm, hrand.symm]

theorem delayStep_some (st st3 : State) (sel1 sel2 sel3 sel4 sel5 : Bool)
    (rand rand3 : List Nat)
    (h : delayStep st sel1 sel2 sel3 sel4 sel5 rand = some (st3, rand3)) :
    st3 = { st with soundDelay := st3.soundDelay } := by
  cases sel1 <;> cases sel2 <;> cases sel3 <;> cases sel4 <;> cases sel5 <;>
    cases rand <;>
    simp only [delayStep, digitalRead, if_true, if_false, Bool.false_eq_true, one_ne_zero,
      Option.some.injEq, Prod.mk.injEq, reduceCtorEq] at h <;>
    (obtain ⟨hst, -⟩ := h; subst hst; rfl)

theorem intervalStep_some (st st4 : State) (atCheck atFire : Nat) (rand out4 rest : List Nat)
    (h : intervalStep st atCheck atFire rand = some (st4, out4, rest)) :
    st4 = { st with
            delayMillis := st4.delayMillis
            previousSounds := st4.previousSounds
            ledBuiltin := st4.ledBuiltin } ∧
    (out4 = [] ∨ ∃ d : Nat, 2 ≤ d ∧ d ≤ 9 ∧ out4 = playSoundOnModule d) := by
  by_cases hf : st.activeState = true ∧ wrap32 (st.delayMillis + st.soundDelay) < atCheck
  · simp only [intervalStep, hf.1, hf.2, if_true] at h
    obtain ⟨d, h2, h9, -, hst, hout, -⟩ := playSound_some _ _ _ _ _ h
    subst hst
    exact ⟨by simp [hf.1], Or.inr ⟨d, h2, h9, hout⟩⟩
  · have h' : some (st, ([] : List Nat), rand) = some (st4, out4, rest) := by
      rw [← h]
      simp only [intervalStep]
      by_cases ha : st.activeState = true
      · have hn : ¬ wrap32 (st.delayMillis + st.soundDelay) < atCheck := fun hc => hf ⟨ha, hc⟩
        simp [ha, hn]
      · simp [ha]
    simp only [Option.some.injEq, Prod.mk.injEq] at h'
    obtain ⟨hst, hout, -⟩ := h'
    subst hst
    exact ⟨rfl, Or.inl hout.symm⟩

theorem volumeStep_eq (st : State) (pot : Nat) :
    volumeStep st pot =
      ({ st with oldVolume := mappedVolume pot },
        if mappedVolume pot = st.oldVolume then [] else setVolume (toUInt16 (mappedVolume pot))) := by
  by_cases h : mappedVolume pot = st.oldVolume
  · simp [volumeStep, h]
  · simp [volumeStep, h]

theorem lightStep_keeps (st : State) (sw : Bool) (photo atLightOn atDim atGrace : Nat) :
    (lightStep st sw photo atLightOn atDim atGrace).1 =
      { st with
        activeState := (lightStep st sw photo atLightOn atDim atGrace).1.activeState
        delayMillis := (lightStep st sw photo atLightOn atDim atGrace).1.delayMillis
        delayedReactionMillis :=
          (lightStep st sw photo atLightOn atDim atGrace).1.delayedReactionMillis
        previousLightReading :=
          (lightStep st sw photo atLightOn atDim atGrace).1.previousLightReading } ∧
    ((lightStep st sw photo atLightOn atDim atGrace).2 = [] ∨
      (lightStep st sw photo atLightOn atDim atGrace).2 = playSoundOnModule 1) := by
  cases sw
  · rw [lightStep_on]
    split_ifs <;> exact ⟨rfl, by simp⟩
  · rw [lightStep_off]
    exact ⟨rfl, Or.inl rfl⟩

theorem loop_some (st st' : State) (inp : Inputs) (rand out rest : List Nat)
    (h : loop st inp rand = some (st', out, rest)) :
    ∃ (st1 : State) (out1 rand1 : List Nat) (st3 : State) (rand3 : List Nat) (st4 : State)
      (out4 : List Nat),
      buttonStep st inp.wasPressed inp.clock.atPress rand = some (st1, out1, rand1) ∧
      delayStep (ledStep st1) inp.selector1 inp.selector2 inp.selector3 inp.selector4
        inp.selector5 rand1 = some (st3, rand3) ∧
      intervalStep st3 inp.clock.atCheck inp.clock.atFire rand3 = some (st4, out4, rest) ∧
      st' = (lightStep (volumeStep st4 inp.potVolume).1 inp.switchSensor inp.photoResistor
              inp.clock.atLightOn inp.clock.atDim inp.clock.atGrace).1 ∧
      out = out1 ++ out4 ++ (volumeStep st4 inp.potVolume).2 ++
        (lightStep (volumeStep st4 inp.potVolume).1 inp.switchSensor inp.photoResistor
          inp.clock.atLightOn inp.clock.atDim inp.clock.atGrace).2 := by
  simp only [loop] at h
  cases hb : buttonStep st inp.wasPressed inp.clock.atPress rand with
  | none => simp [hb] at h
  | some r1 =>
    obtain ⟨st1, out1, rand1⟩ := r1
    simp only [hb] at h
    cases hd : delayStep (ledStep st1) inp.selector1 inp.selector2 inp.selector3
        inp.selector4 inp.selector5 rand1 with
    | none => simp [hd] at h
    | some r3 =>
      obtain ⟨st3, rand3⟩ := r3
      simp only [hd] at h
      cases hi : intervalStep st3 inp.clock.atCheck inp.clock.atFire rand3 with
      | none => simp [hi] at h
      | some r4 =>
        obtain ⟨st4, out4, rand4⟩ := r4
        simp only [hi, Option.some.injEq, Prod.mk.injEq] at h
        obtain ⟨hst, hout, hrest⟩ := h
        subst hrest
        exact ⟨st1, out1, rand1, st3, rand3, st4, out4, rfl, hd, hi, hst.symm, hout.symm⟩

theorem loop_mid (st st' : State) (inp : Inputs) (rand out rest : List Nat)
    (h : loop st inp rand = some (st', out, rest)) :
    ∃ (st4 : State) (tracks : List Nat),
      st' = (lightStep (volumeStep st4 inp.potVolume).1 inp.switchSensor inp.photoResistor
              inp.clock.atLightOn inp.clock.atDim inp.clock.atGrace).1 ∧
      out = tracks.flatMap playSoundOnModule ++ (volumeStep st4 inp.potVolume).2 ++
        (lightStep (volumeStep st4 inp.potVolume).1 inp.switchSensor inp.photoResistor
          inp.clock.atLightOn inp.clock.atDim inp.clock.atGrace).2 ∧
      (∀ t ∈ tracks, 2 ≤ t ∧ t ≤ 9) ∧
      st4.oldVolume = st.oldVolume ∧
      st4.previousLightReading = st.previousLightReading ∧
      st4.delayedReactionMillis = st.delayedReactionMillis ∧
      st4.ledActivate = st4.activeState ∧
      st4.activeState = (if inp.wasPressed then !st.activeState else st.activeState) ∧
      (inp.wasPressed = true → st.activeState = false → ∃ d tl, tracks = d :: tl) := by
  obtain ⟨st1, out1, rand1, st3, rand3, st4, out4, hb, hd, hi, hst, hout⟩ :=
    loop_some _ _ _ _ _ _ h
  obtain ⟨e1, a1, o1⟩ := buttonStep_some _ _ _ _ _ _ _ hb
  have e3 := delayStep_some _ _ _ _ _ _ _ _ _ hd
  obtain ⟨e4, o4⟩ := intervalStep_some _ _ _ _ _ _ _ hi
  have v4 : st4.oldVolume = st3.oldVolume := by
    have t := congrArg State.oldVolume e4
    exact t
  have v3 : st3.oldVolume = st1.oldVolume := by
    have t := congrArg State.oldVolume e3
    exact t
  have v1 : st1.oldVolume = st.oldVolume := by
    have t := congrArg State.oldVolume e1
    exact t
  have l4 : st4.previousLightReading = st3.previousLightReading := by
    have t := congrArg State.previousLightReading e4
    exact t
  have l3 : st3.previousLightReading = st1.previousLightReading := by
    have t := congrArg State.previousLightReading e3
    exact t
  have l1 : st1.previousLightReading = st.previousLightReading := by
    have t := congrArg State.previousLightReading e1
    exact t
  have r4 : st4.delayedReactionMillis = st3.delayedReactionMillis := by
    have t := congrArg State.delayedReactionMillis e4
    exact t
  have r3 : st3.delayedReactionMillis = st1.delayedReactionMillis := by
    have t := congrArg State.delayedReactionMillis e3
    exact t
  have r1 : st1.delayedReactionMillis = st.delayedReactionMillis := by
    have t := congrArg State.delayedReactionMillis e1
    exact t
  have d4 : st4.ledActivate = st3.ledActivate := by
    have t := congrArg State.ledActivate e4
    exact t
  have d3 : st3.ledActivate = st1.activeState := by
    have t := congrArg State.ledActivate e3
    exact t
  have a4 : st4.activeState = st3.activeState := by
    have t := congrArg State.activeState e4
    exact t
  have a3 : st3.activeState = st1.activeState := by
    have t := congrArg State.activeState e3
    exact t
  have hfields : st4.oldVolume = st.oldVolume ∧
      st4.previousLightReading = st.previousLightReading ∧
      st4.delayedReactionMillis = st.delayedReactionMillis ∧
      st4.ledActivate = st4.activeState ∧
      st4.activeState = (if inp.wasPressed then !st.activeState else st.activeState) :=
    ⟨by rw [v4, v3, v1], by rw [l4, l3, l1], by rw [r4, r3, r1], by rw [d4, d3, a4, a3],
      by rw [a4, a3, a1]⟩
  by_cases hp : inp.wasPressed = true ∧ st.activeState = false
  · rw [if_pos hp] at o1
    obtain ⟨-, d1, h12, h19, ho1⟩ := o1
    rcases o4 with ho4 | ⟨d4, h42, h49, ho4⟩
    · refine ⟨st4, [d1], hst, ?_, ?_, hfields.1, hfields.2.1, hfields.2.2.1, hfields.2.2.2.1,
        hfields.2.2.2.2, fun _ _ => ⟨d1, [], rfl⟩⟩
      · rw [hout, ho1, ho4]
        simp [List.flatMap]
      · intro t ht
        rw [List.mem_singleton.1 ht]
        exact ⟨h12, h19⟩
    · refine ⟨st4, [d1, d4], hst, ?_, ?_, hfields.1, hfields.2.1, hfields.2.2.1,
        hfields.2.2.2.1, hfields.2.2.2.2, fun _ _ => ⟨d1, [d4], rfl⟩⟩
      · rw [hout, ho1, ho4]
        simp [List.flatMap]
      · intro t ht
        simp only [List.mem_cons, List.mem_singleton, List.not_mem_nil, or_false] at ht
        rcases ht with ht | ht <;> rw [ht]
        · exact ⟨h12, h19⟩
        · exact ⟨h42, h49⟩
  · rw [if_neg hp] at o1
    obtain ⟨-, ho1, -⟩ := o1
    have hno : inp.wasPressed = true → st.activeState = false →
        ∃ d tl, ([] : List Nat) = d :: tl := fun h1 h2 => absurd ⟨h1, h2⟩ hp
    rcases o4 with ho4 | ⟨d4, h42, h49, ho4⟩
    · refine ⟨st4, [], hst, ?_, by simp, hfields.1, hfields.2.1, hfields.2.2.1,
        hfields.2.2.2.1, hfields.2.2.2.2, hno⟩
      rw [hout, ho1, ho4]
      simp [List.flatMap]
    · refine ⟨st4, [d4], hst, ?_, ?_, hfields.1, hfields.2.1, hfields.2.2.1, hfields.2.2.2.1,
        hfields.2.2.2.2, fun h1 h2 => absurd ⟨h1, h2⟩ hp⟩
      · rw [hout, ho1, ho4]
        simp [List.flatMap]
      · intro t ht
        rw [List.mem_singleton.1 ht]
        exact ⟨h42, h49⟩

theorem setVolume_ne_nil (v : Nat) : setVolume v ≠ [] := by
  simp [setVolume]

theorem setVolume_mapped (pot : Nat) (hp : pot ≤ 1023) :
    ∃ v : Nat, (v : Int) = mappedVolume pot ∧
      setVolume (toUInt16 (mappedVolume pot))
        = [0xAA, 0x13, 0x01, v, (0xAA + 0x13 + 0x01 + v) % 256] := by
  have e := mappedVolume_eq pot hp
  refine ⟨(1023 - pot) * 20 / 1023 + 10, e.symm, ?_⟩
  have hu : toUInt16 (mappedVolume pot) = (1023 - pot) * 20 / 1023 + 10 := by
    rw [e]
    simp only [toUInt16]
    omega
  have hle : (1023 - pot) * 20 / 1023 + 10 ≤ 30 := by omega
  have hc : (if (1023 - pot) * 20 / 1023 + 10 > 30 then 30 else (1023 - pot) * 20 / 1023 + 10)
      = (1023 - pot) * 20 / 1023 + 10 := by
    rw [if_neg (by omega)]
  have hm : ((1023 - pot) * 20 / 1023 + 10) % 256 = (1023 - pot) * 20 / 1023 + 10 :=
    Nat.mod_eq_of_lt (by omega)
  rw [hu]
  simp only [setVolume, hc, and_255, serialWrite, hm]
  norm_num

/-! ## The volume step of `loop` -/

/-- C14: in a run of `loop` the volume block writes a set-volume frame exactly when the
mapped volume differs from the stored `oldVolume`, and nothing otherwise; the bytes of the
run are play frames, then the bytes of the volume block, then nothing or the track 1
frame; after the run the stored value is the mapped volume, so a following run with the
same potentiometer reading writes no volume frame; and when the stored value agreed with
the most recent volume frame before the run, it agrees with the most recent volume frame
after it. -/
theorem loop_volume_on_change (st st' : State) (inp : Inputs) (rand out rest : List Nat)
    (h : loop st inp rand = some (st', out, rest)) :
    (volumeStep st inp.potVolume).2 =
      (if mappedVolume inp.potVolume = st.oldVolume then []
        else setVolume (toUInt16 (mappedVolume inp.potVolume))) ∧
    ((volumeStep st inp.potVolume).2 = [] ↔ mappedVolume inp.potVolume = st.oldVolume) ∧
    (∃ (tracks : List Nat) (after : List Nat),
      out = tracks.flatMap playSoundOnModule ++ (volumeStep st inp.potVolume).2 ++ after ∧
      (after = [] ∨ after = playSoundOnModule 1)) ∧
    st'.oldVolume = mappedVolume inp.potVolume ∧
    (∀ pot2 : Nat, pot2 = inp.potVolume → (volumeStep st' pot2).2 = []) ∧
    (∀ last : Option (List Nat), inp.potVolume ≤ 1023 → VolumeSync st last →
      VolumeSync st'
        (if (volumeStep st inp.potVolume).2 = [] then last
          else some (volumeStep st inp.potVolume).2)) := by
  obtain ⟨st4, tracks, hst, hout, -, hv, -, -, -, -, -⟩ := loop_mid _ _ _ _ _ _ h
  have hvol : (volumeStep st4 inp.potVolume).2 = (volumeStep st inp.potVolume).2 := by
    rw [volumeStep_eq, volumeStep_eq, hv]
  have hold : st'.oldVolume = mappedVolume inp.potVolume := by
    rw [hst, (lightStep_keeps _ _ _ _ _ _).1, volumeStep_eq]
  have hiff : (volumeStep st inp.potVolume).2 = [] ↔ mappedVolume inp.potVolume = st.oldVolume := by
    rw [volumeStep_eq]
    by_cases hc : mappedVolume inp.potVolume = st.oldVolume
    · simp [hc]
    · simp [hc, setVolume_ne_nil]
  refine ⟨by rw [volumeStep_eq], hiff, ⟨tracks, _, by rw [hout, hvol], (lightStep_keeps _ _ _ _ _ _).2⟩,
    hold, ?_, ?_⟩
  · intro pot2 hp
    rw [volumeStep_eq, hp, hold]
    simp
  · intro last hp hsync
    by_cases hc : mappedVolume inp.potVolume = st.oldVolume
    · rw [if_pos (hiff.2 hc)]
      rcases hsync with hn | ⟨v, hv1, hv2⟩
      · exact Or.inl hn
      · exact Or.inr ⟨v, by rw [hv1, hold, hc], hv2⟩
    · rw [if_neg (fun hnil => hc (hiff.1 hnil))]
      obtain ⟨v, hv1, hv2⟩ := setVolume_mapped inp.potVolume hp
      refine Or.inr ⟨v, by rw [hv1, hold], ?_⟩
      rw [volumeStep_eq]
      simp only [hc, if_false]
      rw [hv2]

/-- C14 on the first run from boot, potentiometer at 0: the stored volume 0 differs from
the mapped volume 30 and the frame `AA 13 01 1E DC` is written. -/
theorem loop_volume_on_change_witness :
    loop boot (lightInput 220 5000) []
        = some ({ boot with soundDelay := 500, oldVolume := 30, previousLightReading := 200 },
            [0xAA, 0x13, 0x01, 30, 0xDC], []) ∧
      (volumeStep boot (lightInput 220 5000).potVolume).2 = [0xAA, 0x13, 0x01, 30, 0xDC] ∧
      ({ boot with soundDelay := 500, oldVolume := 30, previousLightReading := 200 } : State).oldVolume
        = mappedVolume (lightInput 220 5000).potVolume :=
  ⟨by decide,
   (loop_volume_on_change boot
      { boot with soundDelay := 500, oldVolume := 30, previousLightReading := 200 }
      (lightInput 220 5000) [] [0xAA, 0x13, 0x01, 30, 0xDC] [] (by decide)).1.trans (by decide),
   (loop_volume_on_change boot { boot with soundDelay := 500, oldVolume := 30, previousLightReading := 200 }
      (lightInput 220 5000) [] [0xAA, 0x13, 0x01, 30, 0xDC] [] (by decide)).2.2.2.1⟩

/-! ## A run of `loop` with the light sensor switched off -/

/-- C15: in a run of `loop` in which the sensor switch reads high (sensor off), the
stored previous light reading and the last-dim time are unchanged; the state after the run
is the state after the button, selector, interval and volume steps, so active and the
last-play time are those after the button and interval steps; the bytes written are play
frames of tracks in `2..9` followed by the bytes of the volume block, so no track 1 frame;
and the run is the same for every photoresistor reading. -/
theorem loop_sensor_off (st st' : State) (inp : Inputs) (rand out rest : List Nat)
    (hsw : inp.switchSensor = true) (h : loop st inp rand = some (st', out, rest)) :
    st'.previousLightReading = st.previousLightReading ∧
    st'.delayedReactionMillis = st.delayedReactionMillis ∧
    (∃ (st1 : State) (out1 rand1 : List Nat) (st3 : State) (rand3 : List Nat) (st4 : State)
      (out4 : List Nat),
      buttonStep st inp.wasPressed inp.clock.atPress rand = some (st1, out1, rand1) ∧
      delayStep (ledStep st1) inp.selector1 inp.selector2 inp.selector3 inp.selector4
        inp.selector5 rand1 = some (st3, rand3) ∧
      intervalStep st3 inp.clock.atCheck inp.clock.atFire rand3 = some (st4, out4, rest) ∧
      st' = { st4 with oldVolume := mappedVolume inp.potVolume } ∧
      st'.activeState = st4.activeState ∧
      st'.delayMillis = st4.delayMillis ∧
      out = out1 ++ out4 ++ (volumeStep st4 inp.potVolume).2) ∧
    (∃ tracks : List Nat, (∀ t ∈ tracks, 2 ≤ t ∧ t ≤ 9) ∧
      out = tracks.flatMap playSoundOnModule ++ (volumeStep st inp.potVolume).2) ∧
    (∀ photo : Nat, loop st { inp with photoResistor := photo } rand = some (st', out, rest)) := by
  obtain ⟨st4, tracks, hst, hout, htr, hv, hl, hr, -, -, -⟩ := loop_mid _ _ _ _ _ _ h
  obtain ⟨st1, out1, rand1, st3, rand3, st4', out4, hb, hd, hi, hst', hout'⟩ :=
    loop_some _ _ _ _ _ _ h
  rw [hsw, lightStep_off] at hst hout hst' hout'
  simp only [List.append_nil] at hout hout'
  have hvol : (volumeStep st4 inp.potVolume).2 = (volumeStep st inp.potVolume).2 := by
    rw [volumeStep_eq, volumeStep_eq, hv]
  refine ⟨?_, ?_, ⟨st1, out1, rand1, st3, rand3, st4', out4, hb, hd, hi, ?_, ?_, ?_, hout'⟩,
    ⟨tracks, htr, by rw [hout, hvol]⟩, ?_⟩
  · rw [hst, volumeStep_eq]
    exact hl
  · rw [hst, volumeStep_eq]
    exact hr
  · rw [hst', volumeStep_eq]
  · rw [hst', volumeStep_eq]
  · rw [hst', volumeStep_eq]
  · intro photo
    rw [← h]
    simp only [loop, hsw, lightStep_off]

/-- C15 on a run from boot with the sensor switch high and the photoresistor at 421. -/
theorem loop_sensor_off_witness :
    loop { boot with previousLightReading := 200 }
        { lightInput 421 5000 with switchSensor := true } []
      = some ({ boot with soundDelay := 500, oldVolume := 30, previousLightReading := 200 },
          [0xAA, 0x13, 0x01, 30, 0xDC], []) ∧
    ({ boot with soundDelay := 500, oldVolume := 30, previousLightReading := 200 }
        : State).previousLightReading = 200 ∧
    loop { boot with previousLightReading := 200 }
        { lightInput 421 5000 with switchSensor := true, photoResistor := 0 } []
      = some ({ boot with soundDelay := 500, oldVolume := 30, previousLightReading := 200 },
          [0xAA, 0x13, 0x01, 30, 0xDC], []) :=
  ⟨by decide,
   (loop_sensor_off { boot with previousLightReading := 200 }
      { boot with soundDelay := 500, oldVolume := 30, previousLightReading := 200 }
      { lightInput 421 5000 with switchSensor := true } [] [0xAA, 0x13, 0x01, 30, 0xDC] []
      rfl (by decide)).1,
   (loop_sensor_off { boot with previousLightReading := 200 }
      { boot with soundDelay := 500, oldVolume := 30, previousLightReading := 200 }
      { lightInput 421 5000 with switchSensor := true } [] [0xAA, 0x13, 0x01, 30, 0xDC] []
      rfl (by decide)).2.2.2.2 0⟩

/-! ## The activation LED -/

/-- C18 as stated fails when the light step changes active: from an idle state with the
previous normalized reading 200, a run with the reading 150 ends with active true while
the level last written to the activation LED is low. -/
theorem loop_led_lags_light :
    normalizedLight 421 = 150 ∧
    (loop { boot with previousLightReading := 200 } (lightInput 421 5000) []).map
        (fun r => (r.1.activeState, r.1.ledActivate, r.2.1))
      = some (true, false, [0xAA, 0x13, 0x01, 30, 0xDC, 0xAA, 0x07, 0x02, 0x00, 0x01, 0xB4]) := by
  decide

/-- C18 amended: at the end of a run of `loop` the level last written to the activation
LED is the value active has right after the button step of that run, which is also its
value when the light step starts; so the LED equals active at the end of the run when the
sensor switch reads high, and in general exactly when the light step left active
unchanged; a change made by the light step is on the LED after the following run without
a button press. -/
theorem loop_led_after_button (st st' : State) (inp : Inputs) (rand out rest : List Nat)
    (h : loop st inp rand = some (st', out, rest)) :
    st'.ledActivate = (if inp.wasPressed then !st.activeState else st.activeState) ∧
    (∃ (st1 : State) (out1 rand1 : List Nat),
      buttonStep st inp.wasPressed inp.clock.atPress rand = some (st1, out1, rand1) ∧
      st'.ledActivate = st1.activeState) ∧
    (∃ st5 : State,
      st' = (lightStep st5 inp.switchSensor inp.photoResistor inp.clock.atLightOn
              inp.clock.atDim inp.clock.atGrace).1 ∧
      st'.ledActivate = st5.activeState) ∧
    (inp.switchSensor = true → st'.ledActivate = st'.activeState) ∧
    (∀ (inp2 : Inputs) (rand2 out2 rest2 : List Nat) (st2 : State),
      inp2.wasPressed = false → loop st' inp2 rand2 = some (st2, out2, rest2) →
      st2.ledActivate = st'.activeState) := by
  have key : ∀ (s s' : State) (i : Inputs) (r o t : List Nat),
      loop s i r = some (s', o, t) →
      s'.ledActivate = (if i.wasPressed then !s.activeState else s.activeState) ∧
      ∃ st5 : State,
        s' = (lightStep st5 i.switchSensor i.photoResistor i.clock.atLightOn
                i.clock.atDim i.clock.atGrace).1 ∧
        s'.ledActivate = st5.activeState := by
    intro s s' i r o t hl
    obtain ⟨st4, tracks, hst, -, -, -, -, -, hled, hact, -⟩ := loop_mid _ _ _ _ _ _ hl
    have e : s'.ledActivate = st4.ledActivate := by
      rw [hst, (lightStep_keeps _ _ _ _ _ _).1, volumeStep_eq]
    have e5 : ((volumeStep st4 i.potVolume).1).activeState = st4.activeState := by
      rw [volumeStep_eq]
    exact ⟨by rw [e, hled, hact], (volumeStep st4 i.potVolume).1, hst, by rw [e, hled, e5]⟩
  obtain ⟨h1, st5, h5, h5a⟩ := key _ _ _ _ _ _ h
  obtain ⟨st1, out1, rand1, -, -, -, -, hb, -, -, -, -⟩ := loop_some _ _ _ _ _ _ h
  have a1 := (buttonStep_some _ _ _ _ _ _ _ hb).2.1
  refine ⟨h1, ⟨st1, out1, rand1, hb, by rw [h1, a1]⟩, ⟨st5, h5, h5a⟩, ?_, ?_⟩
  · intro hsw
    rw [hsw, lightStep_off] at h5
    rw [h5a, h5]
  · intro inp2 rand2 out2 rest2 st2 hnp h2
    have h3 := (key _ _ _ _ _ _ h2).1
    rw [hnp] at h3
    simpa using h3

/-- C18 amended, on the run in which the light turns the device on: the LED stays at the
value active had after the button step. -/
theorem loop_led_after_button_witness :
    loop { boot with previousLightReading := 200 } (lightInput 421 5000) []
      = some ({ boot with
                delayMillis := 5000
                soundDelay := 500
                activeState := true
                oldVolume := 30
                previousLightReading := 150
                delayedReactionMillis := 5000 },
          [0xAA, 0x13, 0x01, 30, 0xDC, 0xAA, 0x07, 0x02, 0x00, 0x01, 0xB4], []) ∧
    ({ boot with
        delayMillis := 5000
        soundDelay := 500
        activeState := true
        oldVolume := 30
        previousLightReading := 150
        delayedReactionMillis := 5000 } : State).ledActivate = false :=
  ⟨by decide,
   (loop_led_after_button { boot with previousLightReading := 200 }
      { boot with
        delayMillis := 5000
        soundDelay := 500
        activeState := true
        oldVolume := 30
        previousLightReading := 150
        delayedReactionMillis := 5000 }
      (lightInput 421 5000) []
      [0xAA, 0x13, 0x01, 30, 0xDC, 0xAA, 0x07, 0x02, 0x00, 0x01, 0xB4] [] (by decide)).1⟩

/-! ## The direction of the light edge -/

/-- C17 as stated fails: the device is idle, the previous normalized reading is 150 and
the current one is 200, a crossing from below 185 to above it; the light step writes
nothing and the device stays idle. -/
theorem lightStep_rising_edge_idle :
    normalizedLight 220 = 200 ∧
    lightStep { boot with previousLightReading := 150 } false 220 5000 5000 5000
      = ({ boot with previousLightReading := 200 }, []) := by
  decide

/-- C17 amended: with the sensor switch low and the device idle, a normalized reading that
goes from at least 185 in the previous sample to below 185 in the current one turns the
device on and writes the track 1 frame; a previous sample below 185, or a current sample
of at least 185, never does; the current sample becomes the previous one, so right after
turning the device on the light step writes nothing on any further sample: one activation
per crossing. -/
theorem lightStep_falling_edge (st : State) (photo atLightOn atDim atGrace : Nat)
    (hidle : st.activeState = false) :
    (185 ≤ st.previousLightReading → normalizedLight photo < 185 →
      (lightStep st false photo atLightOn atDim atGrace).1.activeState = true ∧
      (lightStep st false photo atLightOn atDim atGrace).2
        = [0xAA, 0x07, 0x02, 0x00, 0x01, 0xB4] ∧
      ∀ photo2 t1 t2 t3 : Nat,
        (lightStep (lightStep st false photo atLightOn atDim atGrace).1 false photo2
          t1 t2 t3).2 = []) ∧
    (st.previousLightReading < 185 →
      (lightStep st false photo atLightOn atDim atGrace).1.activeState = false ∧
      (lightStep st false photo atLightOn atDim atGrace).2 = []) ∧
    (185 ≤ normalizedLight photo →
      (lightStep st false photo atLightOn atDim atGrace).1.activeState = false ∧
      (lightStep st false photo atLightOn atDim atGrace).2 = []) ∧
    (lightStep st false photo atLightOn atDim atGrace).1.previousLightReading
      = normalizedLight photo := by
  have h1 : playSoundOnModule 1 = [0xAA, 0x07, 0x02, 0x00, 0x01, 0xB4] := by decide
  refine ⟨?_, ?_, ?_, ?_⟩
  · intro hp hl
    have hl' : normalizedLight photo < lightLevelTrigger := hl
    have hp' : st.previousLightReading ≥ lightLevelTrigger := hp
    have e : lightStep st false photo atLightOn atDim atGrace
        = ({ st with
              delayMillis := atLightOn
              activeState := true
              delayedReactionMillis := atDim
              previousLightReading := normalizedLight photo }, playSoundOnModule 1) := by
      rw [lightStep_on, if_pos hl', if_pos ⟨hp', hidle⟩]
    rw [e]
    refine ⟨rfl, h1, ?_⟩
    intro photo2 t1 t2 t3
    rw [lightStep_on]
    have hn : ¬ (normalizedLight photo ≥ lightLevelTrigger) := by
      simp only [lightLevelTrigger] at *
      omega
    split_ifs <;> simp_all
  · intro hp
    rw [lightStep_on]
    have hn : ¬ (st.previousLightReading ≥ lightLevelTrigger) := by
      simp only [lightLevelTrigger]
      omega
    split_ifs <;> simp_all
  · intro hl
    rw [lightStep_on]
    have hn : ¬ (normalizedLight photo < lightLevelTrigger) := by
      simp only [lightLevelTrigger]
      omega
    split_ifs <;> simp_all
  · rw [lightStep_on]
    split_ifs <;> rfl

/-- C17 amended, on the crossing from 200 down to 150: the device turns on. -/
theorem lightStep_falling_edge_witness :
    (lightStep { boot with previousLightReading := 200 } false 421 5000 5000 5000).1.activeState
      = true :=
  ((lightStep_falling_edge { boot with previousLightReading := 200 } 421 5000 5000 5000 rfl).1
    (by decide) (by decide)).1

/-! ## Termination of the retry loop of `playSound` -/

theorem eligible_count (l : List Int) :
    5 ≤ (([2, 3, 4, 5, 6, 7, 8, 9] : List Int).filter (fun d => decide (d ∉ l))).length
      ∨ 3 < l.length := by
  by_contra hc
  push_neg at hc
  obtain ⟨h5, h3⟩ := hc
  have hsplit := List.length_eq_length_filter_add
    (l := ([2, 3, 4, 5, 6, 7, 8, 9] : List Int)) (fun d => decide (d ∉ l))
  have hnd : (([2, 3, 4, 5, 6, 7, 8, 9] : List Int).filter
      (fun d => !(decide (d ∉ l)))).Nodup :=
    List.Nodup.sublist (List.filter_sublist _) (by decide)
  have hsub : (([2, 3, 4, 5, 6, 7, 8, 9] : List Int).filter
      (fun d => !(decide (d ∉ l)))) ⊆ l := by
    intro d hd
    have := (List.mem_filter.1 hd).2
    simpa using this
  have hle := (List.subperm_of_subset hnd hsub).length_le
  simp only [List.length_cons, List.length_nil] at hsplit
  omega

theorem playSound_first_accept (pre : List Nat) :
    ∀ (st : State) (raw : Nat) (rest : List Nat),
      (∀ r ∈ pre, random r 2 (numberOfSoundsAvailable + 1) ∈ st.previousSounds.toList) →
      random raw 2 (numberOfSoundsAvailable + 1) ∉ st.previousSounds.toList →
      playSound st (pre ++ raw :: rest) =
        some ({ st with
                previousSounds := ⟨st.previousSounds.s1, st.previousSounds.s2,
                  random raw 2 (numberOfSoundsAvailable + 1)⟩
                ledBuiltin := false },
              playSoundOnModule (toByte (random raw 2 (numberOfSoundsAvailable + 1))), rest) := by
  induction pre with
  | nil =>
    intro st raw rest _ hn
    rw [List.nil_append, playSound_cons, if_neg hn]
  | cons r tl ih =>
    intro st raw rest hpre hn
    rw [List.cons_append, playSound_cons, if_pos (hpre r (List.mem_cons_self _ _))]
    rw [ih { st with ledBuiltin := true } raw rest
      (fun x hx => hpre x (List.mem_cons_of_mem _ hx)) hn]

theorem playSound_none_iff (rand : List Nat) :
    ∀ st : State, playSound st rand = none ↔
      ∀ r ∈ rand, random r 2 (numberOfSoundsAvailable + 1) ∈ st.previousSounds.toList := by
  induction rand with
  | nil =>
    intro st
    simp [playSound, playSoundLoop]
  | cons r tl ih =>
    intro st
    rw [playSound_cons]
    by_cases hm : random r 2 (numberOfSoundsAvailable + 1) ∈ st.previousSounds.toList
    · rw [if_pos hm, ih]
      simp [hm]
    · rw [if_neg hm]
      simp [hm]

/-- C19: for every buffer at least 5 of the 8 values `2..9` differ from all three
entries, and each of the 8 values is the draw of some raw value of the generator; when
the draws of the raw values `pre` are all in the buffer and the draw of `raw` is not,
`playSound` on `pre ++ raw :: rest` returns with that draw stored and played and `rest`
left over; so `playSound` returns on every list of raw values that contains a draw outside
the buffer, and only on those. -/
theorem playSound_terminates (st : State) :
    5 ≤ (([2, 3, 4, 5, 6, 7, 8, 9] : List Int).filter
          (fun d => decide (d ∉ st.previousSounds.toList))).length ∧
    (∀ d ∈ ([2, 3, 4, 5, 6, 7, 8, 9] : List Int),
      random (d - 2).toNat 2 (numberOfSoundsAvailable + 1) = d) ∧
    (∀ (pre : List Nat) (raw : Nat) (rest : List Nat),
      (∀ r ∈ pre, random r 2 (numberOfSoundsAvailable + 1) ∈ st.previousSounds.toList) →
      random raw 2 (numberOfSoundsAvailable + 1) ∉ st.previousSounds.toList →
      playSound st (pre ++ raw :: rest) =
        some ({ st with
                previousSounds := ⟨st.previousSounds.s1, st.previousSounds.s2,
                  random raw 2 (numberOfSoundsAvailable + 1)⟩
                ledBuiltin := false },
              playSoundOnModule (toByte (random raw 2 (numberOfSoundsAvailable + 1))), rest)) ∧
    (∀ rand : List Nat,
      (playSound st rand).isSome = true ↔
        ∃ r ∈ rand, random r 2 (numberOfSoundsAvailable + 1) ∉ st.previousSounds.toList) := by
  refine ⟨?_, by decide, fun pre raw rest => playSound_first_accept pre st raw rest, ?_⟩
  · rcases eligible_count st.previousSounds.toList with h | h
    · exact h
    · simp [SoundBuf.toList] at h
  · intro rand
    have hn := playSound_none_iff rand st
    cases hp : playSound st rand with
    | none =>
      have := hn.1 hp
      simp only [Option.isSome_none, Bool.false_eq_true, false_iff, not_exists, not_and,
        not_not]
      exact this
    | some r =>
      simp only [Option.isSome_some, true_iff]
      by_contra hc
      push_neg at hc
      rw [hn.2 hc] at hp
      exact Option.noConfusion hp

/-! ## Light deactivation and the other steps of the same run -/

/-- C20: in a run of `loop` with the sensor switch low, a normalized reading of at least
185 and `delayedReactionMillis + 3000` below `2 ^ 32` and below `millis()`, active is
false after the run whatever it was before and whether or not the button was pressed; a
press on an idle device still plays one random track of `2..9` first. -/
theorem loop_light_off_wins (st st' : State) (inp : Inputs) (rand out rest : List Nat)
    (hsw : inp.switchSensor = false) (hr : 185 ≤ normalizedLight inp.photoResistor)
    (h32 : st.delayedReactionMillis + 3000 < 2 ^ 32)
    (hg : st.delayedReactionMillis + 3000 < inp.clock.atGrace)
    (h : loop st inp rand = some (st', out, rest)) :
    st'.activeState = false ∧
    (inp.wasPressed = true → st.activeState = false →
      ∃ (d : Nat) (tail : List Nat), 2 ≤ d ∧ d ≤ 9 ∧ out = playSoundOnModule d ++ tail) := by
  obtain ⟨st4, tracks, hst, hout, htr, -, -, hdr, -, -, hpress⟩ := loop_mid _ _ _ _ _ _ h
  constructor
  · have hn : ¬ normalizedLight inp.photoResistor < lightLevelTrigger := by
      simp only [lightLevelTrigger]
      omega
    have hw : wrap32 ((volumeStep st4 inp.potVolume).1.delayedReactionMillis + 3000)
        < inp.clock.atGrace := by
      rw [volumeStep_eq]
      simp only [hdr, wrap32]
      rw [Nat.mod_eq_of_lt h32]
      exact hg
    rw [hst, hsw, lightStep_on, if_neg hn, if_pos hw]
  · intro hp hi
    obtain ⟨d, tl, htl⟩ := hpress hp hi
    have hd := htr d (by rw [htl]; exact List.mem_cons_self _ _)
    refine ⟨d, tl.flatMap playSoundOnModule ++ ((volumeStep st4 inp.potVolume).2 ++
      (lightStep (volumeStep st4 inp.potVolume).1 inp.switchSensor inp.photoResistor
        inp.clock.atLightOn inp.clock.atDim inp.clock.atGrace).2), hd.1, hd.2, ?_⟩
    rw [hout, htl, List.flatMap_cons, List.append_assoc, List.append_assoc]

/-- C20 on a button press on the idle boot state while the light has been bright for more
than 3000 ms: track 2 is played and the device is idle after the run. -/
theorem loop_light_off_wins_witness :
    loop boot { lightInput 220 5000 with wasPressed := true } [0]
      = some ({ boot with
                delayMillis := 5000
                soundDelay := 500
                previousSounds := ⟨0, 0, 2⟩
                oldVolume := 30
                previousLightReading := 200
                ledActivate := true },
          [0xAA, 0x07, 0x02, 0x00, 0x02, 0xB5, 0xAA, 0x13, 0x01, 30, 0xDC], []) ∧
    ({ boot with
        delayMillis := 5000
        soundDelay := 500
        previousSounds := ⟨0, 0, 2⟩
        oldVolume := 30
        previousLightReading := 200
        ledActivate := true } : State).activeState = false :=
  ⟨by decide,
   (loop_light_off_wins boot
      { boot with
        delayMillis := 5000
        soundDelay := 500
        previousSounds := ⟨0, 0, 2⟩
        oldVolume := 30
        previousLightReading := 200
        ledActivate := true }
      { lightInput 220 5000 with wasPressed := true } [0]
      [0xAA, 0x07, 0x02, 0x00, 0x02, 0xB5, 0xAA, 0x13, 0x01, 30, 0xDC] []
      rfl (by decide) (by decide) (by decide) (by decide)).1⟩

end Gymotivator
